import Mathlib

/-!
Verification of the channel-table construction and fixed-rate sample
encoding pipeline of the CSV-to-MoTeC converter
(`convert_csv_to_motec_fixed` in `csv_to_motec.py`).

Modelling conventions:
* CSV input is a list of rows, each row a list of text fields; the CSV
  reader and the binary container writer are external collaborators, so
  the conversion result is modelled as the data handed to the writer
  (estimated frequency, channel table, accepted (column, name) pairs,
  and the encoded sample rows).
* Python float parsing (`float(s)`) is abstracted as a parameter
  `pf : String → Option ℚ`; `none` models a raised ValueError, and
  numeric values are rationals, modelling exact arithmetic on the parsed
  values.
* Python indexing `row[i]` whose IndexError is caught is modelled by
  `List.get?`.
* `MotecChannel` / `MotecLog.add_channel` live in `motec_ld.py`, which is
  not among this repository's source files. Per the spec (§4.2), building
  a descriptor from a malformed ChannelSpec can fail, in which case that
  spec is skipped and processing continues (the `try/except` around the
  channel loop). This failure possibility is modelled by a parameter
  `ok : ChannelSpec → Bool` deciding whether descriptor construction
  succeeds for a spec.
* The source hardcodes the channel list `ALL_CHANNELS`; the spec (§9)
  treats it as an explicit configuration value, so the pipeline is
  parameterised by the spec list and `ALL_CHANNELS` is the deployed value.
-/

namespace CsvToMotec

/-- One entry of the static channel configuration: the Python tuple
`(csv_column, csv_header_name, display_name, short_name, units)`. -/
structure ChannelSpec where
  col : Nat
  csvName : String
  displayName : String
  shortName : String
  units : String
deriving DecidableEq

/-- The `ALL_CHANNELS` table of `csv_to_motec.py`, transcribed verbatim. -/
def ALL_CHANNELS : List ChannelSpec := [
  ⟨1, "TS", "Time", "Time", "s"⟩,
  ⟨2, "F_BRAKEPRESSURE", "Front Brake Pressure", "F_BrkPrs", "kPa"⟩,
  ⟨3, "R_BRAKEPRESSURE", "Rear Brake Pressure", "R_BrkPrs", "kPa"⟩,
  ⟨4, "STEERING", "Steering", "Steering", "deg"⟩,
  ⟨5, "FLSHOCK", "FL Shock", "FL_Shock", "mm"⟩,
  ⟨6, "FRSHOCK", "FR Shock", "FR_Shock", "mm"⟩,
  ⟨7, "RRSHOCK", "RR Shock", "RR_Shock", "mm"⟩,
  ⟨8, "RLSHOCK", "RL Shock", "RL_Shock", "mm"⟩,
  ⟨9, "CURRENT", "Current", "Current", "A"⟩,
  ⟨10, "BATTERY", "Battery Voltage", "Battery", "V"⟩,
  ⟨11, "IMU_X_ACCEL", "IMU X Accel", "IMU_X", "g"⟩,
  ⟨12, "IMU_Y_ACCEL", "IMU Y Accel", "IMU_Y", "g"⟩,
  ⟨13, "IMU_Z_ACCEL", "IMU Z Accel", "IMU_Z", "g"⟩,
  ⟨14, "IMU_X_GYRO", "IMU X Gyro", "Gyro_X", "deg/s"⟩,
  ⟨15, "IMU_Y_GYRO", "IMU Y Gyro", "Gyro_Y", "deg/s"⟩,
  ⟨16, "IMU_Z_GYRO", "IMU Z Gyro", "Gyro_Z", "deg/s"⟩,
  ⟨17, "FR_SG", "FR Strain Gauge", "FR_SG", "raw"⟩,
  ⟨18, "FL_SG", "FL Strain Gauge", "FL_SG", "raw"⟩,
  ⟨19, "RL_SG", "RL Strain Gauge", "RL_SG", "raw"⟩,
  ⟨20, "RR_SG", "RR Strain Gauge", "RR_SG", "raw"⟩,
  ⟨21, "FLW_AMB", "FL Wheel Ambient", "FLW_Amb", "C"⟩,
  ⟨22, "FLW_OBJ", "FL Wheel Object", "FLW_Obj", "raw"⟩,
  ⟨23, "FLW_RPM", "FL Wheel RPM", "FLW_RPM", "rpm"⟩,
  ⟨24, "FRW_AMB", "FR Wheel Ambient", "FRW_Amb", "C"⟩,
  ⟨25, "FRW_OBJ", "FR Wheel Object", "FRW_Obj", "raw"⟩,
  ⟨26, "FRW_RPM", "FR Wheel RPM", "FRW_RPM", "rpm"⟩,
  ⟨27, "RRW_AMB", "RR Wheel Ambient", "RRW_Amb", "C"⟩,
  ⟨28, "RRW_OBJ", "RR Wheel Object", "RRW_Obj", "raw"⟩,
  ⟨29, "RRW_RPM", "RR Wheel RPM", "RRW_RPM", "rpm"⟩,
  ⟨30, "RLW_AMB", "RL Wheel Ambient", "RLW_Amb", "C"⟩,
  ⟨31, "RLW_OBJ", "RL Wheel Object", "RLW_Obj", "raw"⟩,
  ⟨32, "RLW_RPM", "RL Wheel RPM", "RLW_RPM", "rpm"⟩,
  ⟨33, "BRAKE_FLUID", "Brake Fluid", "BrkFluid", "raw"⟩,
  ⟨34, "THROTTLE_LOAD", "Throttle Load", "Throttle", "%"⟩,
  ⟨35, "BRAKE_LOAD", "Brake Load", "Brake", "%"⟩,
  ⟨36, "DRS", "DRS", "DRS", "bool"⟩,
  ⟨37, "GPS_LON", "GPS Longitude", "GPS_Lon", "deg"⟩,
  ⟨38, "GPS_LAT", "GPS Latitude", "GPS_Lat", "deg"⟩,
  ⟨39, "GPS_SPD", "GPS Speed", "GPS_Spd", "kph"⟩,
  ⟨40, "GPS_FIX", "GPS Fix", "GPS_Fix", "bool"⟩,
  ⟨41, "ECT", "Engine Coolant Temp", "ECT", "C"⟩,
  ⟨42, "OIL_PSR", "Oil Pressure", "Oil_Prs", "kPa"⟩,
  ⟨43, "TPS", "TPS", "TPS", "%"⟩,
  ⟨44, "APS", "APS", "APS", "%"⟩,
  ⟨45, "DRIVEN_WSPD", "Driven Wheel Speed", "DrWSpeed", "kph"⟩,
  ⟨46, "TESTNO", "Test Number", "TestNo", "num"⟩,
  ⟨47, "DTC_FLW", "DTC FL Wheel", "DTC_FLW", "code"⟩,
  ⟨48, "DTC_FRW", "DTC FR Wheel", "DTC_FRW", "code"⟩,
  ⟨49, "DTC_RLW", "DTC RL Wheel", "DTC_RLW", "code"⟩,
  ⟨50, "DTC_RRW", "DTC RR Wheel", "DTC_RRW", "code"⟩,
  ⟨51, "DTC_FLSG", "DTC FL Strain", "DTC_FLSG", "code"⟩,
  ⟨52, "DTC_FRSG", "DTC FR Strain", "DTC_FRSG", "code"⟩,
  ⟨53, "DTC_RLSG", "DTC RL Strain", "DTC_RLSG", "code"⟩,
  ⟨54, "DTC_RRSG", "DTC RR Strain", "DTC_RRSG", "code"⟩,
  ⟨55, "DTC_IMU", "DTC IMU", "DTC_IMU", "code"⟩,
  ⟨56, "GPS_0_", "GPS 0", "GPS_0", "raw"⟩,
  ⟨57, "GPS_1_", "GPS 1", "GPS_1", "raw"⟩,
  ⟨58, "CH_COUNT", "Channel Count", "CH_Count", "num"⟩]

/-- Python string slicing `s[:n]` on code points. -/
def strTake (n : Nat) (s : String) : String := (s.toList.take n).asString

/-- The `channel_def` dictionary handed to `MotecChannel`: descriptor
metadata as built at lines 138-152 of `csv_to_motec.py`. -/
structure MotecChannelDef where
  name : String
  shortname : String
  units : String
  id : Nat
  freq : Int
  shift : Int
  multiplier : Int
  scale : Int
  decplaces : Int
  datatype : Nat
  datasize : Nat
deriving DecidableEq

/-- Descriptor built from the spec at position `i` of the channel list:
`id = 8000 + i`, `shortname = short_name[:8]`, shared `freq`, and the fixed
scale and storage parameters. -/
def mkChannelDef (freq : Int) (i : Nat) (s : ChannelSpec) : MotecChannelDef where
  name := s.displayName
  shortname := strTake 8 s.shortName
  units := s.units
  id := 8000 + i
  freq := freq
  shift := 0
  multiplier := 1
  scale := 1
  decplaces := 0
  datatype := 7
  datasize := 4

/-- The channel loop (lines 135-162): enumerate the spec list from index
`i`; for each spec whose descriptor construction succeeds (`ok`), the
descriptor joins the log and `(col, csv_name)` joins `channels_added`;
a failing spec is skipped and the loop continues. -/
def buildChannelsAux (ok : ChannelSpec → Bool) (freq : Int) :
    Nat → List ChannelSpec → List (MotecChannelDef × Nat × String)
  | _, [] => []
  | i, s :: rest =>
    if ok s then
      (mkChannelDef freq i s, s.col, s.csvName) :: buildChannelsAux ok freq (i + 1) rest
    else
      buildChannelsAux ok freq (i + 1) rest

/-- Channel table construction, starting enumeration at index 0. -/
def buildChannels (ok : ChannelSpec → Bool) (freq : Int)
    (specs : List ChannelSpec) : List (MotecChannelDef × Nat × String) :=
  buildChannelsAux ok freq 0 specs

/-- The `try` body of frequency estimation: if both time fields parsed,
`dt = t1 - t0`, and if `dt > 0` the frequency is `int(1.0 / dt)`
(truncation, which for positive `dt` is the floor); any failure
(`except: pass`) keeps the default 500. -/
def freqOfTimes : Option ℚ → Option ℚ → Int
  | some t0, some t1 =>
    if 0 < t1 - t0 then Int.floor ((1 : ℚ) / (t1 - t0)) else 500
  | _, _ => 500

/-- Frequency estimation (lines 102-110): default 500; with at least two
data rows, the times are `float(data[0][1])` and `float(data[1][1])`
(indexing failures are caught by the bare `except`, modelled by the
`Option.bind` through `List.get?`). -/
def estimateFreq (pf : String → Option ℚ) (data : List (List String)) : Int :=
  match data with
  | r0 :: r1 :: _ => freqOfTimes ((r0.get? 1).bind pf) ((r1.get? 1).bind pf)
  | _ => 500

/-- Value handling for a present field (lines 178-187): the literal
strings `'None'` and `''` yield 0.0; otherwise the field is parsed, a
ValueError yielding 0.0 and a successful parse being passed through
unmodified ("NO MODIFICATION - use raw value"). -/
def parseOrZero (pf : String → Option ℚ) (s : String) : ℚ :=
  if s = "None" then 0
  else if s = "" then 0
  else
    match pf s with
    | some v => v
    | none => 0

/-- Per-field encoding (lines 173-187): read `row[col]`; an IndexError
(row too short) yields 0.0, otherwise the field value is handled by
`parseOrZero`. -/
def encodeField (pf : String → Option ℚ) (row : List String) (c : Nat) : ℚ :=
  match row.get? c with
  | none => 0
  | some s => parseOrZero pf s

/-- One encoded sample row: the accepted source columns, in channel-table
order, each encoded from the input row. -/
def encodeRow (pf : String → Option ℚ) (cols : List Nat) (row : List String) :
    List ℚ :=
  cols.map (encodeField pf row)

/-- The row cap of the reading loop (lines 95-98):
`if max_samples and i >= max_samples: break`. `None` and `0` are falsy, so
no cap applies; a nonzero cap keeps exactly the rows with index `< cap`
(for a negative cap the loop breaks immediately). -/
def capRows (maxSamples : Option Int) (rows : List (List String)) :
    List (List String) :=
  match maxSamples with
  | none => rows
  | some c => if c = 0 then rows else rows.take c.toNat

/-- Everything `convert_csv_to_motec_fixed` hands to the container writer:
the estimated frequency, the channel table, the accepted
`(column, csv_name)` pairs, and the encoded sample rows. -/
structure ConvertResult where
  freq : Int
  channels : List MotecChannelDef
  channelsAdded : List (Nat × String)
  samples : List (List ℚ)
deriving DecidableEq

/-- The pipeline body after the header has been consumed: cap the data
rows, estimate the frequency from the capped data, build the channel
table once, then encode every capped row in order. -/
def runPipeline (pf : String → Option ℚ) (ok : ChannelSpec → Bool)
    (specs : List ChannelSpec) (rows : List (List String))
    (maxSamples : Option Int) : ConvertResult :=
  let data := capRows maxSamples rows
  let freq := estimateFreq pf data
  let built := buildChannels ok freq specs
  let channelsAdded := built.map Prod.snd
  { freq := freq
    channels := built.map Prod.fst
    channelsAdded := channelsAdded
    samples := data.map (encodeRow pf (channelsAdded.map Prod.fst)) }

/-- `convert_csv_to_motec_fixed` on an already-split CSV: `next(reader)`
on an input with no rows at all raises StopIteration (modelled as an
error); otherwise the first row is the header and the rest is processed
by the pipeline. -/
def convertCsvToMotecFixed (pf : String → Option ℚ) (ok : ChannelSpec → Bool)
    (specs : List ChannelSpec) (lines : List (List String))
    (maxSamples : Option Int) : Except String ConvertResult :=
  match lines with
  | [] => Except.error "StopIteration: no header row"
  | _header :: rest => Except.ok (runPipeline pf ok specs rest maxSamples)

/-- The deployed conversion, with the hardcoded channel configuration. -/
def convertAllChannels (pf : String → Option ℚ) (ok : ChannelSpec → Bool)
    (lines : List (List String)) (maxSamples : Option Int) :
    Except String ConvertResult :=
  convertCsvToMotecFixed pf ok ALL_CHANNELS lines maxSamples

/-! ### Concrete values used to instantiate the theorems -/

/-- A concrete float parser for sample inputs. -/
def pf0 (s : String) : Option ℚ :=
  if s = "0.0" then some 0
  else if s = "2.0" then some 2
  else if s = "4.0" then some 4
  else if s = "1.5" then some (3 / 2)
  else none

/-- Descriptor construction that always succeeds. -/
def okAll : ChannelSpec → Bool := fun _ => true

/-- Sample spec accepted by `ok0`, reading source column 1. -/
def specA : ChannelSpec := ⟨1, "A", "ChanA", "ChanA", "u"⟩

/-- Sample spec rejected by `ok0`. -/
def specX : ChannelSpec := ⟨5, "X", "ChanX", "ChanX", "u"⟩

/-- Sample spec accepted by `ok0`, also reading source column 1. -/
def specB : ChannelSpec := ⟨1, "B", "ChanB", "ChanB", "u"⟩

/-- A three-spec configuration whose middle spec `ok0` rejects. -/
def specs0 : List ChannelSpec := [specA, specX, specB]

/-- Descriptor construction failing exactly on `specX`. -/
def ok0 : ChannelSpec → Bool := fun s => s.csvName != "X"

/-- Three concrete data rows with parsable times at column 1. -/
def rows3 : List (List String) := [["0", "0.0"], ["1", "2.0"], ["2", "4.0"]]

/-! ### Helper lemmas -/

/-- The frequency estimate only looks at the first two data rows. -/
lemma estimateFreq_take_two (pf : String → Option ℚ)
    (data : List (List String)) :
    estimateFreq pf data = estimateFreq pf (data.take 2) := by
  cases data with
  | nil => rfl
  | cons r0 t =>
    cases t with
    | nil => rfl
    | cons r1 rest => rfl

/-- Every channel-table entry comes from a spec at some position `j` that
`ok` accepts, and is the descriptor built for enumeration index `i + j`. -/
lemma mem_buildChannelsAux {ok : ChannelSpec → Bool} {freq : Int}
    (specs : List ChannelSpec) :
    ∀ (i : Nat) (x : MotecChannelDef × Nat × String),
      x ∈ buildChannelsAux ok freq i specs →
      ∃ j s, specs.get? j = some s ∧ ok s = true ∧
        x = (mkChannelDef freq (i + j) s, s.col, s.csvName) := by
  induction specs with
  | nil => intro i x hx; simp [buildChannelsAux] at hx
  | cons s rest ih =>
    intro i x hx
    simp only [buildChannelsAux] at hx
    by_cases hs : ok s
    · rw [if_pos hs] at hx
      rcases List.mem_cons.mp hx with rfl | hx'
      · exact ⟨0, s, rfl, hs, by simp⟩
      · obtain ⟨j, t, hj, ht, hx⟩ := ih (i + 1) x hx'
        refine ⟨j + 1, t, by simpa using hj, ht, ?_⟩
        rw [hx, show i + 1 + j = i + (j + 1) by omega]
    · rw [if_neg hs] at hx
      obtain ⟨j, t, hj, ht, hx⟩ := ih (i + 1) x hx
      refine ⟨j + 1, t, by simpa using hj, ht, ?_⟩
      rw [hx, show i + 1 + j = i + (j + 1) by omega]

/-- The ids in the channel table are strictly increasing, and all bounded
below by the id assigned at the starting enumeration index. -/
lemma buildChannelsAux_ids {ok : ChannelSpec → Bool} {freq : Int}
    (specs : List ChannelSpec) :
    ∀ i : Nat,
      List.Pairwise (· < ·)
        ((buildChannelsAux ok freq i specs).map (fun x => x.1.id))
      ∧ ∀ a ∈ (buildChannelsAux ok freq i specs).map (fun x => x.1.id),
          8000 + i ≤ a := by
  induction specs with
  | nil => intro i; simp [buildChannelsAux]
  | cons s rest ih =>
    intro i
    simp only [buildChannelsAux]
    by_cases hs : ok s
    · rw [if_pos hs]
      obtain ⟨hp, hb⟩ := ih (i + 1)
      constructor
      · simp only [List.map_cons]
        refine List.Pairwise.cons ?_ hp
        intro a ha
        have := hb a ha
        simp only [mkChannelDef]
        omega
      · intro a ha
        simp only [List.map_cons, List.mem_cons] at ha
        rcases ha with rfl | ha
        · simp [mkChannelDef]
        · have := hb a ha; omega
    · rw [if_neg hs]
      obtain ⟨hp, hb⟩ := ih (i + 1)
      exact ⟨hp, fun a ha => by have := hb a ha; omega⟩

/-- The accepted source columns form a sublist of the configured columns. -/
lemma buildChannelsAux_cols_sublist {ok : ChannelSpec → Bool} {freq : Int}
    (specs : List ChannelSpec) :
    ∀ i : Nat,
      ((buildChannelsAux ok freq i specs).map (fun x => x.2.1)).Sublist
        (specs.map ChannelSpec.col) := by
  induction specs with
  | nil => intro i; simp [buildChannelsAux]
  | cons s rest ih =>
    intro i
    simp only [buildChannelsAux, List.map_cons]
    by_cases hs : ok s
    · rw [if_pos hs]
      simpa using List.Sublist.cons₂ s.col (ih (i + 1))
    · rw [if_neg hs]
      exact List.Sublist.cons s.col (ih (i + 1))

/-- When no spec is skipped the assigned ids are exactly the contiguous
range starting at the id of the first enumeration index. -/
lemma buildChannelsAux_ids_allOk {ok : ChannelSpec → Bool} {freq : Int}
    (specs : List ChannelSpec) :
    ∀ i : Nat, (∀ s ∈ specs, ok s = true) →
      (buildChannelsAux ok freq i specs).map (fun x => x.1.id) =
        List.range' (8000 + i) specs.length := by
  induction specs with
  | nil => intro i _; simp [buildChannelsAux]
  | cons s rest ih =>
    intro i hall
    have hs : ok s = true := hall s (by simp)
    simp only [buildChannelsAux, if_pos hs, List.map_cons, List.length_cons]
    rw [show List.range' (8000 + i) (rest.length + 1) =
        (8000 + i) :: List.range' (8000 + (i + 1)) rest.length by
      rw [show 8000 + (i + 1) = 8000 + i + 1 by omega]; rfl]
    rw [ih (i + 1) (fun t ht => hall t (by simp [ht]))]
    simp [mkChannelDef]

/-- Truncation produces a string of length `min n (length s)`. -/
lemma strTake_length (n : Nat) (s : String) :
    (strTake n s).length = min n s.length := by
  cases s with
  | mk data =>
    simp [strTake, String.length, String.toList, List.asString,
      List.length_take]

/-- Truncation to 8 characters never pads: a short name of length at most
8 is returned unchanged. -/
lemma strTake_of_le (s : String) (h : s.length ≤ 8) : strTake 8 s = s := by
  cases s with
  | mk data =>
    simp only [String.length] at h
    simp [strTake, String.toList, List.asString, List.take_of_length_le h]

/-! ### Claim theorems -/

/-- C1: with at least two data rows whose time values (column 1) parse and
whose delta `dt = time[row1] - time[row0]` is strictly positive, the
estimated frequency is `floor(1 / dt)`; with fewer than two rows, an
unparsable time value, or a non-positive delta, it is the default 500.
The estimator is a total function, so estimation never aborts. -/
theorem estimateFreq_spec (pf : String → Option ℚ) (data : List (List String)) :
    (∀ r0 r1 rest t0 t1, data = r0 :: r1 :: rest →
        (r0.get? 1).bind pf = some t0 → (r1.get? 1).bind pf = some t1 →
        0 < t1 - t0 →
        estimateFreq pf data = Int.floor ((1 : ℚ) / (t1 - t0)))
    ∧ (data.length < 2 → estimateFreq pf data = 500)
    ∧ (∀ r0 r1 rest, data = r0 :: r1 :: rest →
        ((r0.get? 1).bind pf = none ∨ (r1.get? 1).bind pf = none ∨
          ∀ t0 t1, (r0.get? 1).bind pf = some t0 →
            (r1.get? 1).bind pf = some t1 → t1 - t0 ≤ 0) →
        estimateFreq pf data = 500) := by
  refine ⟨?_, ?_, ?_⟩
  · rintro r0 r1 rest t0 t1 rfl h0 h1 hdt
    show freqOfTimes ((r0.get? 1).bind pf) ((r1.get? 1).bind pf) = _
    rw [h0, h1]
    simp [freqOfTimes, hdt]
  · intro h
    cases data with
    | nil => rfl
    | cons r0 t =>
      cases t with
      | nil => rfl
      | cons r1 rest => simp only [List.length_cons] at h; omega
  · rintro r0 r1 rest rfl h
    show freqOfTimes ((r0.get? 1).bind pf) ((r1.get? 1).bind pf) = 500
    cases h0 : (r0.get? 1).bind pf with
    | none => cases h1 : (r1.get? 1).bind pf <;> rfl
    | some t0 =>
      cases h1 : (r1.get? 1).bind pf with
      | none => rfl
      | some t1 =>
        rcases h with h | h | h
        · rw [h] at h0; cases h0
        · rw [h] at h1; cases h1
        · have hle := h t0 t1 h0 h1
          simp [freqOfTimes, not_lt.mpr hle]

/-- Witness for C1 at a concrete input: two rows with times 0.0 and 2.0
give the frequency `floor(1 / 2)`. -/
theorem estimateFreq_spec_witness :
    estimateFreq pf0 [["0", "0.0"], ["1", "2.0"]] =
      Int.floor ((1 : ℚ) / (2 - 0)) :=
  (estimateFreq_spec pf0 [["0", "0.0"], ["1", "2.0"]]).1
    ["0", "0.0"] ["1", "2.0"] [] 0 2 rfl rfl rfl (by norm_num)

/-- C4: a field that is absent (row shorter than the source column),
textually empty, the sentinel marker, or unparsable encodes to exactly 0. -/
theorem encodeField_default_zero (pf : String → Option ℚ)
    (row : List String) (c : Nat) :
    (row.get? c = none → encodeField pf row c = 0)
    ∧ (row.get? c = some "" → encodeField pf row c = 0)
    ∧ (row.get? c = some "None" → encodeField pf row c = 0)
    ∧ (∀ s, row.get? c = some s → pf s = none → encodeField pf row c = 0) := by
  refine ⟨fun h => by simp only [encodeField, h],
    fun h => by simp only [encodeField, h]; simp [parseOrZero],
    fun h => by simp only [encodeField, h]; simp [parseOrZero],
    fun s h hp => ?_⟩
  simp only [encodeField, h]
  by_cases h1 : s = "None"
  · simp [parseOrZero, h1]
  · by_cases h2 : s = ""
    · simp [parseOrZero, h1, h2]
    · simp [parseOrZero, h1, h2, hp]

/-- Witness for C4: reading column 5 of a one-field row encodes to 0. -/
theorem encodeField_default_zero_witness :
    encodeField pf0 ["7"] 5 = 0 :=
  (encodeField_default_zero pf0 ["7"] 5).1 rfl

/-- C5: on a row whose fields at the accepted source columns are all
well-formed numeric strings, every encoded value is exactly the parsed
value — the encoder applies no conversion, scaling, shifting or rounding. -/
theorem encodeRow_passthrough (pf : String → Option ℚ) (cols : List Nat)
    (row : List String)
    (hwf : ∀ c ∈ cols, ∃ s v, row.get? c = some s ∧ s ≠ "None" ∧ s ≠ "" ∧
      pf s = some v) :
    ∀ i c, cols.get? i = some c → ∀ s v, row.get? c = some s →
      pf s = some v → (encodeRow pf cols row).get? i = some v := by
  intro i c hic s v hs hv
  obtain ⟨s', v', hs', hn', he', hv'⟩ := hwf c (List.get?_mem hic)
  rw [hs'] at hs
  cases hs
  simp only [encodeRow, List.get?_map, hic, Option.map_some', encodeField, hs']
  simp [parseOrZero, hn', he', hv]

/-- Witness for C5: the field "1.5" at column 1 is passed through as the
parsed value 3/2. -/
theorem encodeRow_passthrough_witness :
    (encodeRow pf0 [1] ["x", "1.5"]).get? 0 = some ((3 : ℚ) / 2) :=
  encodeRow_passthrough pf0 [1] ["x", "1.5"]
    (fun c hc => by
      have hc1 : c = 1 := by simpa using hc
      subst hc1
      exact ⟨"1.5", 3 / 2, rfl, by decide, by decide, rfl⟩)
    0 1 rfl "1.5" (3 / 2) rfl rfl

/-- C9: a supplied row cap of 0 is falsy in the reading loop's test, so
the cap is ignored and the conversion behaves exactly as with no cap. -/
theorem capZero_ignored (pf : String → Option ℚ) (ok : ChannelSpec → Bool)
    (specs : List ChannelSpec) (lines : List (List String)) :
    convertCsvToMotecFixed pf ok specs lines (some 0) =
      convertCsvToMotecFixed pf ok specs lines none := by
  cases lines with
  | nil => rfl
  | cons h rest => simp [convertCsvToMotecFixed, runPipeline, capRows]

/-- C10: a completely empty input (no header row) makes the header read
raise StopIteration, so the conversion errors out and produces no result
rather than yielding an empty session. -/
theorem emptyInput_error (pf : String → Option ℚ) (ok : ChannelSpec → Bool)
    (specs : List ChannelSpec) (maxSamples : Option Int) :
    convertCsvToMotecFixed pf ok specs [] maxSamples =
      Except.error "StopIteration: no header row" := rfl

/-- C2: the pipeline produces exactly one EncodedRow per processed input
row (all rows with no cap; the first `max(0, cap)` rows with a positive
cap), each row encoded exactly once in input order, and the frequency is
estimated from the first two of the capped rows only. -/
theorem pipeline_row_count (pf : String → Option ℚ) (ok : ChannelSpec → Bool)
    (specs : List ChannelSpec) (rows : List (List String))
    (maxSamples : Option Int) :
    (runPipeline pf ok specs rows maxSamples).samples.length =
        (capRows maxSamples rows).length
    ∧ (runPipeline pf ok specs rows maxSamples).samples =
        (capRows maxSamples rows).map
          (encodeRow pf
            ((runPipeline pf ok specs rows maxSamples).channelsAdded.map
              Prod.fst))
    ∧ (maxSamples = none →
        (runPipeline pf ok specs rows maxSamples).samples.length = rows.length)
    ∧ (∀ c : Int, maxSamples = some c → 1 ≤ c →
        (runPipeline pf ok specs rows maxSamples).samples.length =
          min c.toNat rows.length)
    ∧ (runPipeline pf ok specs rows maxSamples).freq =
        estimateFreq pf ((capRows maxSamples rows).take 2) := by
  refine ⟨by simp [runPipeline], by simp [runPipeline], ?_, ?_, ?_⟩
  · rintro rfl
    simp [runPipeline, capRows]
  · rintro c rfl hc
    have hne : c ≠ 0 := by omega
    simp [runPipeline, capRows, hne]
  · exact estimateFreq_take_two pf (capRows maxSamples rows)

/-- Witness for C2: a cap of 2 on a 3-row input yields
`min 2 3` encoded rows. -/
theorem pipeline_row_count_witness :
    (runPipeline pf0 okAll specs0 rows3 (some 2)).samples.length =
      min (Int.toNat 2) rows3.length :=
  (pipeline_row_count pf0 okAll specs0 rows3 (some 2)).2.2.2.1 2 rfl
    (by norm_num)

/-- C3: encoding is total — every processed row yields a fully populated
EncodedRow whose length equals the channel-table length. -/
theorem encodeRow_total_length (pf : String → Option ℚ)
    (ok : ChannelSpec → Bool) (specs : List ChannelSpec)
    (rows : List (List String)) (maxSamples : Option Int) :
    ∀ r ∈ (runPipeline pf ok specs rows maxSamples).samples,
      r.length = (runPipeline pf ok specs rows maxSamples).channels.length := by
  intro r hr
  simp only [runPipeline] at hr ⊢
  obtain ⟨row, hrow, rfl⟩ := List.mem_map.mp hr
  simp [encodeRow]

/-- Witness for C3: the first encoded row of a concrete conversion has
the channel-table length. -/
theorem encodeRow_total_length_witness :
    ((runPipeline pf0 okAll specs0 rows3 none).samples.head!).length =
      (runPipeline pf0 okAll specs0 rows3 none).channels.length :=
  encodeRow_total_length pf0 okAll specs0 rows3 none _
    (List.head!_mem_self (by simp [runPipeline, capRows, rows3]))

/-- C6 (counterexample): with the middle spec of `specs0` skipped as
malformed, the second table entry has id 8002 at table position 1 — ids
are not `base + position_in_table` and not contiguous — and the two
accepted descriptors share source column 1. -/
theorem channelTable_id_cex :
    ((buildChannels ok0 500 specs0).map (fun x => (x.1.id, x.2.1)) =
      [(8000, 1), (8002, 1)])
    ∧ ¬ (∀ k d, ((buildChannels ok0 500 specs0).map Prod.fst).get? k =
          some d → d.id = 8000 + k)
    ∧ ¬ List.Pairwise (· ≠ ·)
        ((buildChannels ok0 500 specs0).map (fun x => x.2.1)) := by
  refine ⟨by decide, ?_, by decide⟩
  intro hctg
  have h1 : ((buildChannels ok0 500 specs0).map Prod.fst).get? 1 =
      some (mkChannelDef 500 2 specB) := by decide
  have h2 := hctg 1 _ h1
  simp [mkChannelDef] at h2

/-- C6 (amended): each descriptor's id is 8000 plus the position of its
spec in the input ChannelSpec list; ids are strictly increasing (hence
pairwise distinct); accepted source columns are pairwise distinct whenever
the configured columns are; and when no spec is skipped the ids are the
contiguous range starting at 8000 (so id = 8000 + table position). -/
theorem channelTable_id_amended (ok : ChannelSpec → Bool) (freq : Int)
    (specs : List ChannelSpec) :
    (∀ x ∈ buildChannels ok freq specs, ∃ j s, specs.get? j = some s ∧
        ok s = true ∧ x = (mkChannelDef freq j s, s.col, s.csvName) ∧
        x.1.id = 8000 + j)
    ∧ List.Pairwise (· < ·)
        ((buildChannels ok freq specs).map (fun x => x.1.id))
    ∧ ((specs.map ChannelSpec.col).Nodup →
        ((buildChannels ok freq specs).map (fun x => x.2.1)).Nodup)
    ∧ ((∀ s ∈ specs, ok s = true) →
        (buildChannels ok freq specs).map (fun x => x.1.id) =
          List.range' 8000 specs.length) := by
  refine ⟨?_, (buildChannelsAux_ids specs 0).1, ?_, ?_⟩
  · intro x hx
    obtain ⟨j, s, hj, hs, hx⟩ := mem_buildChannelsAux specs 0 x hx
    rw [show (0 : Nat) + j = j by omega] at hx
    exact ⟨j, s, hj, hs, hx, by rw [hx]; rfl⟩
  · intro hnd
    exact (buildChannelsAux_cols_sublist specs 0).nodup hnd
  · intro hall
    simpa using buildChannelsAux_ids_allOk specs 0 hall

/-- Witness for C6 (amended): with no spec skipped, the ids of the table
built from `specs0` are the contiguous range 8000, 8001, 8002. -/
theorem channelTable_id_amended_witness :
    (buildChannels okAll 500 specs0).map (fun x => x.1.id) =
      List.range' 8000 specs0.length :=
  (channelTable_id_amended okAll 500 specs0).2.2.2 (fun _ _ => rfl)

/-- C7: every descriptor carries a short name truncated (never padded) to
at most 8 characters, the shared frequency, the fixed scale parameters
(shift 0, multiplier 1, scale 1, 0 decimal places), and the fixed 4-byte
float storage type; in the pipeline each descriptor's frequency is the
single estimated frequency. -/
theorem channelDef_metadata (ok : ChannelSpec → Bool) (freq : Int)
    (specs : List ChannelSpec) :
    (∀ x ∈ buildChannels ok freq specs,
      (∃ s ∈ specs, x.1.shortname = strTake 8 s.shortName ∧
        (s.shortName.length ≤ 8 → x.1.shortname = s.shortName))
      ∧ x.1.shortname.length ≤ 8
      ∧ x.1.freq = freq ∧ x.1.shift = 0 ∧ x.1.multiplier = 1
      ∧ x.1.scale = 1 ∧ x.1.decplaces = 0 ∧ x.1.datatype = 7
      ∧ x.1.datasize = 4)
    ∧ (∀ (pf : String → Option ℚ) (rows : List (List String))
        (maxSamples : Option Int),
        ∀ d ∈ (runPipeline pf ok specs rows maxSamples).channels,
          d.freq = (runPipeline pf ok specs rows maxSamples).freq) := by
  constructor
  · intro x hx
    obtain ⟨j, s, hj, hs, hx⟩ := mem_buildChannelsAux specs 0 x hx
    subst hx
    refine ⟨⟨s, List.get?_mem hj, rfl, fun hle => strTake_of_le s.shortName hle⟩,
      ?_, rfl, rfl, rfl, rfl, rfl, rfl, rfl⟩
    rw [show (mkChannelDef freq (0 + j) s, s.col, s.csvName).1.shortname =
        strTake 8 s.shortName from rfl, strTake_length]
    omega
  · intro pf rows maxSamples d hd
    simp only [runPipeline] at hd ⊢
    obtain ⟨x, hx, rfl⟩ := List.mem_map.mp hd
    obtain ⟨j, s, hj, hs, rfl⟩ :=
      mem_buildChannelsAux specs 0 x hx
    rfl

/-- Witness for C7: the descriptor built from `specA` at position 0
carries the estimated frequency 500. -/
theorem channelDef_metadata_witness :
    (mkChannelDef 500 0 specA, specA.col, specA.csvName).1.freq = 500 :=
  ((channelDef_metadata okAll 500 specs0).1
    (mkChannelDef 500 0 specA, specA.col, specA.csvName) (by decide)).2.2.1

/-- C8: the pipeline is a deterministic function of the input rows and
channel specs — identical inputs yield identical channel tables and
identical encoded-row sequences. -/
theorem pipeline_deterministic (pf : String → Option ℚ)
    (ok : ChannelSpec → Bool) (specs1 specs2 : List ChannelSpec)
    (rows1 rows2 : List (List String)) (maxSamples : Option Int)
    (hrows : rows1 = rows2) (hspecs : specs1 = specs2) :
    (runPipeline pf ok specs1 rows1 maxSamples).channels =
        (runPipeline pf ok specs2 rows2 maxSamples).channels
    ∧ (runPipeline pf ok specs1 rows1 maxSamples).samples =
        (runPipeline pf ok specs2 rows2 maxSamples).samples := by
  subst hrows; subst hspecs; exact ⟨rfl, rfl⟩

/-- Witness for C8 at concrete inputs. -/
theorem pipeline_deterministic_witness :
    (runPipeline pf0 okAll specs0 rows3 none).channels =
        (runPipeline pf0 okAll specs0 rows3 none).channels
    ∧ (runPipeline pf0 okAll specs0 rows3 none).samples =
        (runPipeline pf0 okAll specs0 rows3 none).samples :=
  pipeline_deterministic pf0 okAll specs0 specs0 rows3 rows3 none rfl rfl

end CsvToMotec
